import Mathlib

/-!
Shallow embedding of the d-sis catering backend (JSON-file routes) and
verification of its specified properties.

JavaScript conventions modelled here:
* an object field that may be absent is an `Option`; `none` is `undefined`/`null`;
* `a || b` on strings is `jsOr` (`""`, `undefined` and `null` are falsy);
* `x === y` on strings/fields is decidable equality on `Option String`;
* numbers that the routes only add, multiply and compare are `Rat`/`Int`
  (the routes perform no floating-point rounding);
* `Math.max()` applied to an empty argument list yields `-Infinity`, a
  non-integer value, modelled by `none : Option Int`.
-/

namespace Catering

/-- JS truthiness for an optional string: `undefined`, `null` and `""` are falsy. -/
def truthyStr : Option String → Bool
  | none => false
  | some s => !(s == "")

/-- JS `a || b` on optional strings: `a` when truthy, else `b`. -/
def jsOr (a b : Option String) : Option String :=
  if truthyStr a then a else b

/-- JS `String.prototype.trim()`: strip whitespace from both ends of the
string (modelled structurally on the character list). -/
def jsTrim (s : String) : String :=
  String.mk (((s.data.dropWhile Char.isWhitespace).reverse.dropWhile
    Char.isWhitespace).reverse)

/-- Outcome of a route handler: an HTTP status with a JSON payload, or an
HTTP error status with an error message. -/
inductive RouteResult (α : Type) where
  | ok (status : Nat) (payload : α)
  | err (status : Nat) (msg : String)
  deriving Repr, DecidableEq

/-- `readJSONFile` / `readMenuData` / `readPromoData` (backend/routes/*.js):
on a read or parse failure the `catch` branch returns `[]`, so callers
proceed with an empty collection.  `raw = none` models the failure. -/
def readJSONFile {α : Type} (raw : Option (List α)) : List α :=
  match raw with
  | some l => l
  | none => []

/-! ## Bookings (backend/routes/bookings.js) -/

/-- A stored booking record.  Only the fields the bookings routes read or
write are modelled; records persisted by older code use the snake_case
`event_date` / `time_slot` fields, which is why both spellings appear. -/
structure Booking where
  id : Option Int := none
  bookingId : Option String := none
  eventDate : Option String := none
  event_date : Option String := none
  timeSlot : Option String := none
  time_slot : Option String := none
  totalAmount : Option Rat := none
  status : Option String := none
  createdAt : Option String := none
  deriving Repr, DecidableEq

/-- `booking.eventDate || booking.event_date` (bookings.js line 40). -/
def bookingDate (b : Booking) : Option String :=
  jsOr b.eventDate b.event_date

/-- `booking.timeSlot || booking.time_slot` (bookings.js line 61). -/
def bookingSlot (b : Booking) : Option String :=
  jsOr b.timeSlot b.time_slot

/-- `const allSlots = ['morning', 'afternoon']` (bookings.js line 60). -/
def allSlots : List String := ["morning", "afternoon"]

/-- The local `bookedSlots` of `getAvailableSlots` (bookings.js line 61):
map each booking of the day to its slot and drop falsy slots. -/
def bookedSlotsOf (dateBookings : List Booking) : List String :=
  ((dateBookings.map bookingSlot).filter truthyStr).filterMap id

/-- `getAvailableSlots` (bookings.js lines 59-64): the slots of `allSlots`
that are not among the day's booked slots. -/
def getAvailableSlots (dateBookings : List Booking) : List String :=
  allSlots.filter (fun slot => !((bookedSlotsOf dateBookings).contains slot))

/-- The bookings of a given date (bookings.js lines 39-42): filter by exact
string equality of the (coalesced) date field. -/
def bookingsForDate (bookings : List Booking) (date : String) : List Booking :=
  bookings.filter (fun b => bookingDate b == some date)

/-- Available slots that `GET /availability/:date` computes for a date. -/
def availableSlotsFor (bookings : List Booking) (date : String) : List String :=
  getAvailableSlots (bookingsForDate bookings date)

/-- `GET /availability/:date` (bookings.js lines 30-57): read the bookings
file (an unreadable file yields `[]`) and answer 200 with the date's
bookings and available slots; no branch produces an error status. -/
def availabilityRoute (raw : Option (List Booking)) (date : String) :
    RouteResult (List Booking × List String) :=
  let bookings := readJSONFile raw
  let dateBookings := bookingsForDate bookings date
  .ok 200 (dateBookings, getAvailableSlots dateBookings)

/-- One element of the request's `selectedItems` array. -/
structure SelectedItem where
  name : Option String := none
  price : Option Rat := none
  quantity : Option Rat := none
  deriving Repr, DecidableEq

/-- Body of `POST /` on the bookings router (the fields the handler uses). -/
structure BookingRequest where
  firstName : Option String := none
  lastName : Option String := none
  contactNumber : Option String := none
  occasion : Option String := none
  eventDate : Option String := none
  timeSlot : Option String := none
  numGuests : Option Int := none
  eventVenue : Option String := none
  fullAddress : Option String := none
  instructions : Option String := none
  selectedItems : Option (List SelectedItem) := none
  deriving Repr, DecidableEq

/-- The duplicate scan of `POST /` (bookings.js lines 171-174):
`bookings.find(b => b.eventDate === eventDate && (b.timeSlot === timeSlot
|| b.time_slot === timeSlot))`.  Note that it reads only the camelCase
`eventDate` field of the stored booking. -/
def conflictingBooking (bookings : List Booking) (req : BookingRequest) :
    Option Booking :=
  bookings.find? (fun b =>
    b.eventDate == req.eventDate &&
    (b.timeSlot == req.timeSlot || b.time_slot == req.timeSlot))

/-- Whether `POST /` rejects date `d`, slot `s` as a conflict. -/
def hasConflict (bookings : List Booking) (d s : String) : Bool :=
  (conflictingBooking bookings { eventDate := some d, timeSlot := some s }).isSome

/-- `POST /` on the bookings router (bookings.js lines 149-237).
`genBookingId` and `nowIso` stand for the generated `BK-...` identifier and
`new Date().toISOString()`; `writeOk` is whether `writeJSONFile` succeeds.
The second component is the bookings file's content after the request:
on any failure the file keeps its prior content. -/
def createBooking (bookings : List Booking) (req : BookingRequest)
    (genBookingId : String) (nowIso : String) (writeOk : Bool) :
    RouteResult Booking × List Booking :=
  if !(truthyStr req.eventDate) || !(truthyStr req.timeSlot) then
    (.err 400 "Missing required fields", bookings)
  else
    match req.selectedItems with
    | none => (.err 400 "Missing required fields", bookings)
    | some items =>
      if items.isEmpty then (.err 400 "Missing required fields", bookings)
      else
        match conflictingBooking bookings req with
        | some _ =>
          (.err 400 ("The " ++ req.timeSlot.getD "" ++
            " time slot is already booked for " ++ req.eventDate.getD ""),
           bookings)
        | none =>
          let newId := (bookings.map (fun b => b.id.getD 0)).foldl max 0 + 1
          let totalAmount :=
            items.foldl (fun acc it => acc + it.price.getD 0 * it.quantity.getD 0) 0
          let newBooking : Booking :=
            { id := some newId
              bookingId := some genBookingId
              eventDate := req.eventDate
              timeSlot := req.timeSlot
              totalAmount := some totalAmount
              status := some "pending"
              createdAt := some nowIso }
          if writeOk then (.ok 201 newBooking, bookings ++ [newBooking])
          else (.err 500 "Failed to save booking", bookings)

end Catering

namespace Catering

/-- Characterisation of membership in the availability result, shared by
several theorems below. -/
lemma mem_availableSlotsFor (bookings : List Booking) (d s : String) :
    s ∈ availableSlotsFor bookings d ↔
      s ∈ allSlots ∧
        ¬ ∃ b ∈ bookings, bookingDate b = some d ∧ bookingSlot b = some s := by
  have hne : s ∈ allSlots → s ≠ "" := by
    intro h
    simp only [allSlots, List.mem_cons, List.not_mem_nil, or_false] at h
    rcases h with rfl | rfl <;> decide
  have hc : ∀ l : List String, l.contains s = false ↔ s ∉ l := by
    intro l
    rw [Bool.eq_false_iff]
    exact not_congr List.elem_iff
  unfold availableSlotsFor getAvailableSlots
  constructor
  · intro hmem
    obtain ⟨hall, hnc⟩ := List.mem_filter.mp hmem
    rw [Bool.not_eq_true'] at hnc
    refine ⟨hall, ?_⟩
    rintro ⟨b, hb, hbd, hbs⟩
    apply (hc _).mp hnc
    apply List.mem_filterMap.mpr
    refine ⟨some s, ?_, rfl⟩
    apply List.mem_filter.mpr
    constructor
    · refine List.mem_map.mpr ⟨b, ?_, hbs⟩
      exact List.mem_filter.mpr ⟨hb, by simp [hbd]⟩
    · simp [truthyStr, hne hall]
  · rintro ⟨hall, hnb⟩
    apply List.mem_filter.mpr
    refine ⟨hall, ?_⟩
    rw [Bool.not_eq_true']
    apply (hc _).mpr
    intro hsmem
    obtain ⟨o, ho, hoeq⟩ := List.mem_filterMap.mp hsmem
    obtain ⟨homap, -⟩ := List.mem_filter.mp ho
    obtain ⟨b, hbf, hbs⟩ := List.mem_map.mp homap
    obtain ⟨hbmem, hbd⟩ := List.mem_filter.mp hbf
    refine hnb ⟨b, hbmem, by simpa using hbd, ?_⟩
    rw [hbs]
    exact hoeq

/-- C1: For every stored bookings list and every date string `d`, the
availability operation returns exactly the set `{morning, afternoon}` minus
the slots of those stored bookings whose date field (`eventDate`, falling
back to `event_date`) equals `d` exactly as a string. -/
theorem availability_complement (bookings : List Booking) (d s : String) :
    s ∈ availableSlotsFor bookings d ↔
      s ∈ allSlots ∧
        ¬ ∃ b ∈ bookings, bookingDate b = some d ∧ bookingSlot b = some s :=
  mem_availableSlotsFor bookings d s

/-- A stored booking whose date and slot live in the snake_case fields
only, as the availability scan's own fallbacks anticipate. -/
def snakeBooking : Booking :=
  { event_date := some "2024-06-01", time_slot := some "morning" }

/-- A creation request for the very date and slot `snakeBooking` occupies. -/
def snakeCexRequest : BookingRequest :=
  { eventDate := some "2024-06-01"
    timeSlot := some "morning"
    selectedItems := some [{ name := some "Adobo", price := some 100, quantity := some 2 }] }

/-- The booking that `POST /` persists for `snakeCexRequest`. -/
def snakeCexCreated : Booking :=
  { id := some 1
    bookingId := some "BK-1"
    eventDate := some "2024-06-01"
    timeSlot := some "morning"
    totalAmount := some 200
    status := some "pending"
    createdAt := some "2024-01-02T00:00:00Z" }

/-- C2, counterexample: the stored booking `snakeBooking` has event date
`2024-06-01` and time slot `morning` (read, as the availability scan reads
them, from `eventDate || event_date` and `timeSlot || time_slot`), yet
creating a booking for that same date and slot succeeds with 201 and the
stored list grows: the duplicate scan reads only the camelCase `eventDate`
field, so no conflict error is raised and the list is altered. -/
theorem create_ignores_snake_date_cex :
    bookingDate snakeBooking = some "2024-06-01" ∧
    bookingSlot snakeBooking = some "morning" ∧
    (createBooking [snakeBooking] snakeCexRequest "BK-1" "2024-01-02T00:00:00Z" true).1 =
      RouteResult.ok 201 snakeCexCreated ∧
    (createBooking [snakeBooking] snakeCexRequest "BK-1" "2024-01-02T00:00:00Z" true).2 =
      [snakeBooking, snakeCexCreated] := by
  refine ⟨rfl, rfl, ?_, ?_⟩ <;>
  · unfold createBooking conflictingBooking snakeBooking snakeCexRequest snakeCexCreated
    norm_num [truthyStr]
    simp

/-- C2 (amended): For every stored bookings list containing a booking whose
camelCase `eventDate` field equals `d` and whose `timeSlot` or `time_slot`
field equals `s`, creating a new booking for the same `d` and `s` (with a
well-formed request) fails with a conflict error naming the slot and date,
and the stored bookings list is unchanged by the failed request. -/
theorem create_conflict_rejects (bookings : List Booking) (b : Booking)
    (req : BookingRequest) (d s : String) (items : List SelectedItem)
    (gid nowIso : String) (w : Bool)
    (hb : b ∈ bookings)
    (hbd : b.eventDate = some d)
    (hbs : b.timeSlot = some s ∨ b.time_slot = some s)
    (hrd : req.eventDate = some d) (hrs : req.timeSlot = some s)
    (hd : d ≠ "") (hs : s ≠ "")
    (hitems : req.selectedItems = some items) (hne : items ≠ []) :
    (createBooking bookings req gid nowIso w).1 =
      .err 400 ("The " ++ s ++ " time slot is already booked for " ++ d) ∧
    (createBooking bookings req gid nowIso w).2 = bookings := by
  have hsome : ∃ cb, conflictingBooking bookings req = some cb := by
    rw [← Option.isSome_iff_exists]
    unfold conflictingBooking
    rw [List.find?_isSome]
    refine ⟨b, hb, ?_⟩
    rw [hbd, hrd, hrs]
    rcases hbs with h | h <;> rw [h] <;> simp
  obtain ⟨cb, hcb⟩ := hsome
  unfold createBooking
  rw [hrd, hrs, hitems, hcb]
  have hie : items.isEmpty = false := by
    rw [List.isEmpty_eq_false_iff_exists_mem]
    cases items with
    | nil => exact absurd rfl hne
    | cons x xs => exact ⟨x, List.mem_cons_self x xs⟩
  simp [truthyStr, hd, hs, hie]

/-- C3, counterexample: with only `snakeBooking` stored, the `morning` slot
of `2024-06-01` is absent from the availability result, yet the
creation-time duplicate check reports no conflict for that date and slot,
so the two scans disagree on which (date, slot) pairs are occupied. -/
theorem conflict_availability_disagree_cex :
    hasConflict [snakeBooking] "2024-06-01" "morning" = false ∧
    "morning" ∉ availableSlotsFor [snakeBooking] "2024-06-01" := by
  constructor
  · decide
  · decide

/-- C3 (amended): the creation-time duplicate check and the availability
scan agree on which (date, slot) pairs are occupied provided every stored
booking keeps its date and slot in the camelCase fields only (its
`event_date` and `time_slot` fields unset), the date is non-empty and the
slot belongs to the slot universe. -/
theorem conflict_availability_agree (bookings : List Booking) (d s : String)
    (hd : d ≠ "") (hs : s ∈ allSlots)
    (hclean : ∀ b ∈ bookings, b.event_date = none ∧ b.time_slot = none) :
    hasConflict bookings d s = true ↔ s ∉ availableSlotsFor bookings d := by
  have hsne : s ≠ "" := by
    simp only [allSlots, List.mem_cons, List.not_mem_nil, or_false] at hs
    rcases hs with rfl | rfl <;> decide
  rw [mem_availableSlotsFor]
  push_neg
  constructor
  · intro hcf
    intro hall
    unfold hasConflict conflictingBooking at hcf
    rw [Option.isSome_iff_exists] at hcf
    obtain ⟨cb, hcb⟩ := hcf
    have hmem := List.find?_some hcb
    have hcbmem := List.mem_of_find?_eq_some hcb
    obtain ⟨hed, hts⟩ := hclean cb hcbmem
    simp only [Bool.and_eq_true, Bool.or_eq_true, beq_iff_eq] at hmem
    obtain ⟨hmd, hms⟩ := hmem
    refine ⟨cb, hcbmem, ?_, ?_⟩
    · unfold bookingDate jsOr
      rw [hmd]
      simp [truthyStr, hd]
    · rcases hms with h | h
      · unfold bookingSlot jsOr
        rw [h]
        simp [truthyStr, hsne]
      · rw [hts] at h
        exact absurd h (by simp)
  · intro hex
    obtain ⟨b, hbmem, hbd, hbs⟩ := hex hs
    obtain ⟨hed, hts⟩ := hclean b hbmem
    unfold bookingDate jsOr at hbd
    unfold bookingSlot jsOr at hbs
    rw [hed] at hbd
    rw [hts] at hbs
    have hbed : b.eventDate = some d := by
      by_cases hT : truthyStr b.eventDate = true
      · rw [if_pos hT] at hbd; exact hbd
      · rw [if_neg (by simpa using hT)] at hbd; exact absurd hbd (by simp)
    have hbts : b.timeSlot = some s := by
      by_cases hT : truthyStr b.timeSlot = true
      · rw [if_pos hT] at hbs; exact hbs
      · rw [if_neg (by simpa using hT)] at hbs; exact absurd hbs (by simp)
    unfold hasConflict conflictingBooking
    rw [Option.isSome_iff_exists]
    rw [← Option.isSome_iff_exists, List.find?_isSome]
    refine ⟨b, hbmem, ?_⟩
    rw [hbed, hbts]
    simp

/-- A stored booking using the camelCase fields, as `POST /` writes them. -/
def camelBooking : Booking :=
  { eventDate := some "2024-07-04", timeSlot := some "afternoon" }

/-- Line items of the witness creation request. -/
def camelItems : List SelectedItem :=
  [{ name := some "Lechon", price := some 50, quantity := some 1 }]

/-- A creation request colliding with `camelBooking`. -/
def camelCexRequest : BookingRequest :=
  { eventDate := some "2024-07-04"
    timeSlot := some "afternoon"
    selectedItems := some camelItems }

/-- Witness for `create_conflict_rejects` at a concrete input. -/
theorem create_conflict_rejects_witness :
    (createBooking [camelBooking] camelCexRequest "BK-2" "2024-01-02T00:00:00Z" true).1 =
      .err 400 ("The " ++ "afternoon" ++ " time slot is already booked for " ++ "2024-07-04") ∧
    (createBooking [camelBooking] camelCexRequest "BK-2" "2024-01-02T00:00:00Z" true).2 =
      [camelBooking] :=
  create_conflict_rejects [camelBooking] camelBooking camelCexRequest
    "2024-07-04" "afternoon" camelItems "BK-2" "2024-01-02T00:00:00Z" true
    (List.mem_singleton.mpr rfl) rfl (Or.inl rfl) rfl rfl
    (by decide) (by decide) rfl (List.cons_ne_nil _ _)

/-- Witness for `conflict_availability_agree` at a concrete input. -/
theorem conflict_availability_agree_witness :
    (hasConflict [camelBooking] "2024-07-04" "afternoon" = true ↔
      "afternoon" ∉ availableSlotsFor [camelBooking] "2024-07-04") :=
  conflict_availability_agree [camelBooking] "2024-07-04" "afternoon"
    (by decide) (by decide)
    (by
      intro b hb
      rw [List.mem_singleton] at hb
      subst hb
      exact ⟨rfl, rfl⟩)

end Catering

/-! ## Receipts (backend/routes/receipts.js) -/

namespace Catering

/-- `const subtotal = booking.total_amount || 0` (receipts.js line 58). -/
def receiptSubtotal (total_amount : Option Rat) : Rat :=
  total_amount.getD 0

/-- `const taxRate = 0.12; // 12% VAT` (receipts.js line 59). -/
def taxRate : Rat := 0.12

/-- `const taxAmount = subtotal * taxRate` (receipts.js line 60). -/
def receiptTaxAmount (subtotal : Rat) : Rat := subtotal * taxRate

/-- `const totalAmount = subtotal + taxAmount` (receipts.js line 61). -/
def receiptTotalAmount (subtotal : Rat) : Rat :=
  subtotal + receiptTaxAmount subtotal

/-- C4: Receipt generation computes tax as 12% of the booking's subtotal
and the receipt total as subtotal plus tax, i.e. total = subtotal × 1.12
for every non-negative subtotal. -/
theorem receipt_totals (s : Rat) (h : 0 ≤ s) :
    receiptTaxAmount s = s * (12 / 100) ∧
    receiptTotalAmount s = s * (112 / 100) := by
  constructor
  · unfold receiptTaxAmount taxRate
    norm_num
  · unfold receiptTotalAmount receiptTaxAmount taxRate
    rw [show (0.12 : Rat) = 12 / 100 by norm_num]
    ring

/-- Witness for `receipt_totals`: subtotal 1000.00 yields tax 120.00 and
total 1120.00. -/
theorem receipt_totals_witness :
    receiptTaxAmount 1000 = 120 ∧ receiptTotalAmount 1000 = 1120 := by
  obtain ⟨h1, h2⟩ := receipt_totals 1000 (by norm_num)
  rw [h1, h2]
  norm_num

end Catering

/-! ## Promo codes (backend/routes/promo-codes.js)

Timestamps (`startAt`, `endAt`, `new Date()`) are modelled as integers in
milliseconds; a `null`/absent bound is `none`.  The `usageLimit` stored by
creation is `null` or a non-zero integer, and the validation route guards
the limit check with JS truthiness, so a limit of `0` performs no check. -/

namespace Catering

/-- A stored promo-code record (the fields the routes read or write). -/
structure PromoCode where
  id : Option Int := none
  code : String := ""
  discountPercent : Option Int := none
  description : String := ""
  usageLimit : Option Int := none
  usageCount : Int := 0
  startAt : Option Int := none
  endAt : Option Int := none
  active : Bool := true
  createdAt : Option String := none
  updatedAt : Option String := none
  deriving Repr, DecidableEq

/-- `promoCode.startAt && new Date(promoCode.startAt) > now`
(promo-codes.js line 64). -/
def promoStartFuture (p : PromoCode) (now : Int) : Bool :=
  match p.startAt with
  | some t => decide (t > now)
  | none => false

/-- `promoCode.endAt && new Date(promoCode.endAt) < now`
(promo-codes.js line 68). -/
def promoEndPast (p : PromoCode) (now : Int) : Bool :=
  match p.endAt with
  | some t => decide (t < now)
  | none => false

/-- `promoCode.usageLimit && promoCode.usageCount >= promoCode.usageLimit`
(promo-codes.js line 73); a falsy (`null` or `0`) limit skips the check. -/
def promoLimitReached (p : PromoCode) : Bool :=
  match p.usageLimit with
  | some l => if l == 0 then false else decide (p.usageCount ≥ l)
  | none => false

/-- The case-insensitive lookup `promoCodes.find(p => p.code.toUpperCase()
=== code.toUpperCase())` (promo-codes.js lines 51 and 106). -/
def findPromoByCode (promoCodes : List PromoCode) (code : String) :
    Option PromoCode :=
  promoCodes.find? (fun p => p.code.toUpper == code.toUpper)

/-- `POST /validate` (promo-codes.js lines 42-82): required code, lookup,
then active flag, validity window, usage limit, in that order. -/
def validatePromo (promoCodes : List PromoCode) (code : String) (now : Int) :
    RouteResult PromoCode :=
  if code == "" then .err 400 "Promo code is required"
  else
    match findPromoByCode promoCodes code with
    | none => .err 404 "Invalid promo code"
    | some p =>
      if !p.active then .err 400 "Promo code is no longer active"
      else if promoStartFuture p now then .err 400 "Promo code is not yet active"
      else if promoEndPast p now then .err 400 "Promo code has expired"
      else if promoLimitReached p then .err 400 "Promo code usage limit reached"
      else .ok 200 p

/-- Body of `POST /` on the promo-codes router. -/
structure PromoCreateRequest where
  code : Option String := none
  discountPercent : Option Int := none
  description : Option String := none
  usageLimit : Option Int := none
  startAt : Option Int := none
  endAt : Option Int := none
  active : Option Bool := none
  deriving Repr, DecidableEq

/-- Body of `PUT /:id` on the promo-codes router: `{...currentPromo,
...updates}` overrides exactly the fields present in the request body. -/
structure PromoUpdates where
  code : Option String := none
  discountPercent : Option Int := none
  description : Option String := none
  usageLimit : Option Int := none
  usageCount : Option Int := none
  startAt : Option Int := none
  endAt : Option Int := none
  active : Option Bool := none
  deriving Repr, DecidableEq

/-- `POST /` (promo-codes.js lines 85-144).  `nowTs`/`nowIso` stand for the
current time; `writeOk` is whether `writePromoData` succeeds.  The second
component is the promo file's content after the request. -/
def createPromo (promoCodes : List PromoCode) (req : PromoCreateRequest)
    (nowTs : Int) (nowIso : String) (writeOk : Bool) :
    RouteResult PromoCode × List PromoCode :=
  match req.code, req.discountPercent with
  | some c, some dp =>
    if c == "" ∨ dp == 0 then
      (.err 400 "Code and discount percentage are required", promoCodes)
    else if dp < 1 ∨ dp > 100 then
      (.err 400 "Discount percentage must be between 1 and 100", promoCodes)
    else
      match findPromoByCode promoCodes c with
      | some _ => (.err 400 "Promo code already exists", promoCodes)
      | none =>
        let newId : Int :=
          if promoCodes.length > 0 then
            (promoCodes.map (fun p => p.id.getD 0)).foldl max 0 + 1
          else 1
        let newPromo : PromoCode :=
          { id := some newId
            code := jsTrim c.toUpper
            discountPercent := some dp
            description := req.description.getD ""
            usageLimit := match req.usageLimit with
              | some l => if l == 0 then none else some l
              | none => none
            usageCount := 0
            startAt := some (req.startAt.getD nowTs)
            endAt := req.endAt
            active := req.active.getD true
            createdAt := some nowIso
            updatedAt := some nowIso }
        if writeOk then (.ok 201 newPromo, promoCodes ++ [newPromo])
        else (.err 500 "Failed to save promo code", promoCodes)
  | _, _ => (.err 400 "Code and discount percentage are required", promoCodes)

/-- The merged record `{...currentPromo, ...updates, id: promoId,
updatedAt: ...}` of `PUT /:id` (promo-codes.js lines 160-166). -/
def mergePromo (cur : PromoCode) (u : PromoUpdates) (pid : Int)
    (nowIso : String) : PromoCode :=
  { id := some pid
    code := u.code.getD cur.code
    discountPercent := match u.discountPercent with
      | some v => some v
      | none => cur.discountPercent
    description := u.description.getD cur.description
    usageLimit := match u.usageLimit with
      | some v => some v
      | none => cur.usageLimit
    usageCount := u.usageCount.getD cur.usageCount
    startAt := match u.startAt with
      | some v => some v
      | none => cur.startAt
    endAt := match u.endAt with
      | some v => some v
      | none => cur.endAt
    active := u.active.getD cur.active
    createdAt := cur.createdAt
    updatedAt := some nowIso }

/-- `PUT /:id` (promo-codes.js lines 147-181): find by id, merge the body
over the record with no further validation, write back. -/
def updatePromo (promoCodes : List PromoCode) (pid : Int) (u : PromoUpdates)
    (nowIso : String) (writeOk : Bool) :
    RouteResult PromoCode × List PromoCode :=
  match promoCodes.findIdx? (fun p => p.id == some pid) with
  | none => (.err 404 "Promo code not found", promoCodes)
  | some i =>
    match promoCodes.get? i with
    | none => (.err 404 "Promo code not found", promoCodes)
    | some cur =>
      let updated := mergePromo cur u pid nowIso
      if writeOk then (.ok 200 updated, promoCodes.set i updated)
      else (.err 500 "Failed to save promo code", promoCodes)

/-- `PATCH /:id/toggle` (promo-codes.js lines 184-210): set the active
flag to `Boolean(req.body.active)`. -/
def togglePromo (promoCodes : List PromoCode) (pid : Int)
    (active : Option Bool) (nowIso : String) (writeOk : Bool) :
    RouteResult PromoCode × List PromoCode :=
  match promoCodes.findIdx? (fun p => p.id == some pid) with
  | none => (.err 404 "Promo code not found", promoCodes)
  | some i =>
    match promoCodes.get? i with
    | none => (.err 404 "Promo code not found", promoCodes)
    | some cur =>
      let updated := { cur with active := active.getD false, updatedAt := some nowIso }
      if writeOk then (.ok 200 updated, promoCodes.set i updated)
      else (.err 500 "Failed to update promo code", promoCodes)

/-- `DELETE /:id` (promo-codes.js lines 213-237): splice the record out. -/
def deletePromo (promoCodes : List PromoCode) (pid : Int) (writeOk : Bool) :
    RouteResult PromoCode × List PromoCode :=
  match promoCodes.findIdx? (fun p => p.id == some pid) with
  | none => (.err 404 "Promo code not found", promoCodes)
  | some i =>
    match promoCodes.get? i with
    | none => (.err 404 "Promo code not found", promoCodes)
    | some cur =>
      if writeOk then (.ok 200 cur, promoCodes.eraseIdx i)
      else (.err 500 "Failed to delete promo code", promoCodes)

/-- Case-insensitive uniqueness of the stored promo-code strings. -/
def ciUnique (promoCodes : List PromoCode) : Prop :=
  promoCodes.Pairwise (fun a b => a.code.toUpper ≠ b.code.toUpper)

instance : DecidablePred ciUnique := fun l =>
  List.instDecidablePairwise l

/-- ASCII uppercasing is idempotent, character by character. -/
lemma char_toUpper_idem (c : Char) : c.toUpper.toUpper = c.toUpper := by
  unfold Char.toUpper
  dsimp only
  by_cases h : c.toNat ≥ 97 ∧ c.toNat ≤ 122
  · rw [if_pos h]
    have htn : (Char.ofNat (c.toNat - 32)).toNat = c.toNat - 32 := by
      unfold Char.ofNat
      rw [dif_pos]
      · rfl
      · left; omega
    rw [htn]
    rw [if_neg (by omega)]
  · rw [if_neg h, if_neg h]

/-- Uppercasing acts on the underlying character list, which lets concrete
instances evaluate. -/
lemma toUpper_data (s : String) : s.toUpper = String.mk (s.data.map Char.toUpper) :=
  String.map_eq Char.toUpper s

/-- ASCII uppercasing of a string is idempotent. -/
lemma string_toUpper_idem (s : String) : s.toUpper.toUpper = s.toUpper := by
  show (s.map Char.toUpper).map Char.toUpper = s.map Char.toUpper
  rw [String.map_eq, String.map_eq]
  simp only [List.map_map]
  congr 1
  have h : Char.toUpper ∘ Char.toUpper = Char.toUpper := by
    funext c
    exact char_toUpper_idem c
  rw [h]

/-- Replacing one element by another with the same key preserves pairwise
key-distinctness. -/
lemma pairwise_key_ne_set {α β : Type} (f : α → β) :
    ∀ (l : List α) (i : Nat) (e cur : α),
      l.get? i = some cur → f e = f cur →
      l.Pairwise (fun a b => f a ≠ f b) →
      (l.set i e).Pairwise (fun a b => f a ≠ f b) := by
  intro l
  induction l with
  | nil => intro i e cur hcur _ _; simp at hcur
  | cons x xs ih =>
    intro i e cur hcur hkey hp
    rw [List.pairwise_cons] at hp
    cases i with
    | zero =>
      have hx : cur = x := by
        simp only [List.get?] at hcur
        exact (Option.some_inj.mp hcur).symm
      rw [List.set]
      rw [List.pairwise_cons]
      refine ⟨?_, hp.2⟩
      intro b hb
      rw [hkey, hx]
      exact hp.1 b hb
    | succ n =>
      have hcur' : xs.get? n = some cur := hcur
      rw [List.set]
      rw [List.pairwise_cons]
      refine ⟨?_, ih n e cur hcur' hkey hp.2⟩
      intro b hb
      rcases List.mem_or_eq_of_mem_set hb with hb' | rfl
      · exact hp.1 b hb'
      · rw [hkey]
        exact hp.1 cur (List.get?_mem hcur')

end Catering

namespace Catering

/-- C5: For a request code matching a stored code case-insensitively, the
validation operation checks the active flag, then the validity window
(start not in the future, end not in the past), then usage-limit
exhaustion, in that order, and returns the reason of the first failing
check; if all checks pass it succeeds. -/
theorem promo_validate_order (promoCodes : List PromoCode) (code : String)
    (now : Int) (p : PromoCode)
    (hc : code ≠ "")
    (hp : findPromoByCode promoCodes code = some p) :
    (p.active = false →
      validatePromo promoCodes code now = .err 400 "Promo code is no longer active") ∧
    (p.active = true → promoStartFuture p now = true →
      validatePromo promoCodes code now = .err 400 "Promo code is not yet active") ∧
    (p.active = true → promoStartFuture p now = false → promoEndPast p now = true →
      validatePromo promoCodes code now = .err 400 "Promo code has expired") ∧
    (p.active = true → promoStartFuture p now = false → promoEndPast p now = false →
      promoLimitReached p = true →
      validatePromo promoCodes code now = .err 400 "Promo code usage limit reached") ∧
    (p.active = true → promoStartFuture p now = false → promoEndPast p now = false →
      promoLimitReached p = false →
      validatePromo promoCodes code now = .ok 200 p) := by
  have hcc : (code == "") = false := by simp [hc]
  unfold validatePromo
  rw [hp]
  simp only [hcc, Bool.false_eq_true, if_false]
  refine ⟨?_, ?_, ?_, ?_, ?_⟩
  · intro ha
    simp [ha]
  · intro ha hsf
    simp [ha, hsf]
  · intro ha hsf hep
    simp [ha, hsf, hep]
  · intro ha hsf hep hl
    simp [ha, hsf, hep, hl]
  · intro ha hsf hep hl
    simp [ha, hsf, hep, hl]

/-- The `SAVE10` code of the specification: active, validity window
2024-01-01 to 2099-01-01 (millisecond timestamps), usage below limit. -/
def save10 : PromoCode :=
  { id := some 1
    code := "SAVE10"
    discountPercent := some 10
    usageLimit := some 100
    usageCount := 5
    startAt := some 1704067200000
    endAt := some 4070908800000
    active := true }

/-- An active code whose `endAt` has already passed. -/
def old10 : PromoCode :=
  { id := some 2
    code := "OLD10"
    discountPercent := some 10
    startAt := some 1704067200000
    endAt := some 1706745600000
    active := true }

/-- Witness for `promo_validate_order`: a matching, active, in-window,
under-limit code validates; a code with a past `endAt` fails with the
expiry reason.  (`now` is 2024-07-03T09:46:40Z in milliseconds.) -/
theorem promo_validate_order_witness :
    validatePromo [save10] "save10" 1720000000000 = .ok 200 save10 ∧
    validatePromo [old10] "OLD10" 1720000000000 = .err 400 "Promo code has expired" := by
  have hp1 : findPromoByCode [save10] "save10" = some save10 := by
    simp only [findPromoByCode, save10, List.find?, toUpper_data]
    decide
  have hp2 : findPromoByCode [old10] "OLD10" = some old10 := by
    simp only [findPromoByCode, old10, List.find?, toUpper_data]
    decide
  constructor
  · exact (promo_validate_order [save10] "save10" 1720000000000 save10
      (by decide) hp1).2.2.2.2 rfl (by decide) (by decide) (by decide)
  · exact (promo_validate_order [old10] "OLD10" 1720000000000 old10
      (by decide) hp2).2.2.1 rfl (by decide) (by decide)

/-- Two stored promo codes with case-insensitively distinct code strings. -/
def promoA : PromoCode :=
  { id := some 1, code := "SAVE10", discountPercent := some 10 }

/-- The second stored promo code. -/
def promoB : PromoCode :=
  { id := some 2, code := "XMAS", discountPercent := some 20 }

/-- An update body that renames `promoB` to an existing code (up to case). -/
def dupUpdate : PromoUpdates := { code := some "save10" }

/-- The record that `PUT /:id` persists for `dupUpdate` on `promoB`. -/
def promoBDup : PromoCode :=
  { id := some 2
    code := "save10"
    discountPercent := some 20
    updatedAt := some "2024-01-02T00:00:00Z" }

/-- The initial two-element store is case-insensitively unique. -/
lemma promoAB_unique : ciUnique [promoA, promoB] := by
  unfold ciUnique
  rw [List.pairwise_cons]
  refine ⟨?_, by simp⟩
  intro b hb
  rw [List.mem_singleton] at hb
  subst hb
  show promoA.code.toUpper ≠ promoB.code.toUpper
  rw [show promoA.code = "SAVE10" from rfl, show promoB.code = "XMAS" from rfl]
  rw [toUpper_data, toUpper_data]
  decide

/-- C6, counterexample: starting from a store with the codes `SAVE10` and
`XMAS` (case-insensitively unique), the update operation applied to the
second record with body `{code: "save10"}` succeeds and produces a store
containing `SAVE10` and `save10` — two promo codes equal up to case — so
uniqueness is not an invariant preserved by every promo-code operation. -/
theorem promo_update_breaks_uniqueness_cex :
    ciUnique [promoA, promoB] ∧
    ¬ ciUnique (updatePromo [promoA, promoB] 2 dupUpdate "2024-01-02T00:00:00Z" true).2 := by
  refine ⟨promoAB_unique, ?_⟩
  intro hciu
  have hres : (updatePromo [promoA, promoB] 2 dupUpdate "2024-01-02T00:00:00Z" true).2
      = [promoA, promoBDup] := by decide
  rw [hres] at hciu
  unfold ciUnique at hciu
  rw [List.pairwise_cons] at hciu
  have h := hciu.1 promoBDup (by simp)
  apply h
  rw [show promoA.code = "SAVE10" from rfl, show promoBDup.code = "save10" from rfl]
  rw [toUpper_data, toUpper_data]
  decide

/-- C6 (amended): case-insensitive uniqueness of promo-code strings is
preserved by the toggle and delete operations, and by creation whenever
trimming does not change the uppercased requested code; the update
operation, by contrast, merges a provided `code` field without re-checking
uniqueness (see the counterexample). -/
theorem promo_uniqueness_ops :
    (∀ (codes : List PromoCode) (pid : Int) (a : Option Bool) (iso : String) (w : Bool),
      ciUnique codes → ciUnique (togglePromo codes pid a iso w).2) ∧
    (∀ (codes : List PromoCode) (pid : Int) (w : Bool),
      ciUnique codes → ciUnique (deletePromo codes pid w).2) ∧
    (∀ (codes : List PromoCode) (req : PromoCreateRequest) (ts : Int) (iso : String)
      (w : Bool) (c : String),
      req.code = some c → jsTrim c.toUpper = c.toUpper →
      ciUnique codes → ciUnique (createPromo codes req ts iso w).2) := by
  refine ⟨?_, ?_, ?_⟩
  · intro codes pid a iso w hu
    unfold togglePromo
    split
    · exact hu
    next i heq =>
      split
      · exact hu
      next cur heq2 =>
        split
        next hw =>
          exact pairwise_key_ne_set (fun p : PromoCode => p.code.toUpper) codes i
            { cur with active := a.getD false, updatedAt := some iso } cur heq2 rfl hu
        next hw => exact hu
  · intro codes pid w hu
    unfold deletePromo
    split
    · exact hu
    next i heq =>
      split
      · exact hu
      next cur heq2 =>
        split
        next hw => exact List.Pairwise.sublist (List.eraseIdx_sublist codes i) hu
        next hw => exact hu
  · intro codes req ts iso w c hc htrim hu
    unfold createPromo
    rw [hc]
    cases hdp : req.discountPercent with
    | none => exact hu
    | some dp =>
      dsimp only
      split
      · exact hu
      split
      · exact hu
      split
      · exact hu
      next hF =>
        split
        next hw =>
          unfold ciUnique at hu ⊢
          rw [List.pairwise_append]
          refine ⟨hu, by simp, ?_⟩
          intro p hp q hq
          rw [List.mem_singleton] at hq
          subst hq
          show p.code.toUpper ≠ (jsTrim c.toUpper).toUpper
          rw [htrim, string_toUpper_idem]
          have hne := List.find?_eq_none.mp hF p hp
          simpa using hne
        next hw => exact hu

/-- Request creating a fresh, already-trimmed, distinct code. -/
def xmasReq : PromoCreateRequest :=
  { code := some "XMAS2", discountPercent := some 20 }

/-- Witness for `promo_uniqueness_ops` at concrete inputs. -/
theorem promo_uniqueness_ops_witness :
    ciUnique (togglePromo [promoA, promoB] 1 (some false) "2024-01-02T00:00:00Z" true).2 ∧
    ciUnique (deletePromo [promoA, promoB] 1 true).2 ∧
    ciUnique (createPromo [promoA] xmasReq 0 "2024-01-02T00:00:00Z" true).2 := by
  obtain ⟨h1, h2, h3⟩ := promo_uniqueness_ops
  refine ⟨h1 _ _ _ _ _ promoAB_unique, h2 _ _ _ promoAB_unique, ?_⟩
  refine h3 [promoA] xmasReq 0 "2024-01-02T00:00:00Z" true "XMAS2" rfl ?_ ?_
  · rw [toUpper_data]
    decide
  · unfold ciUnique
    simp

end Catering

/-! ## Menu items (backend/routes/menu.js) -/

namespace Catering

/-- A stored menu item (the fields the menu routes read or write).  The
identifier is optional: `Math.max()` over an empty menu yields `-Infinity`,
which `JSON.stringify` persists as `null`, modelled by `none`. -/
structure MenuItem where
  id : Option Int := none
  itemName : String := ""
  description : String := ""
  category : String := ""
  pricePerServing : Rat := 0
  imageUrl : String := ""
  isAvailable : Bool := true
  deriving Repr, DecidableEq

/-- Body of `POST /` on the menu router. -/
structure MenuCreateRequest where
  itemName : Option String := none
  description : Option String := none
  category : Option String := none
  pricePerServing : Option Rat := none
  imageUrl : Option String := none
  isAvailable : Option Bool := none
  deriving Repr, DecidableEq

/-- Body of `PUT /:id` on the menu router; only provided fields update. -/
structure MenuUpdates where
  itemName : Option String := none
  description : Option String := none
  category : Option String := none
  pricePerServing : Option Rat := none
  imageUrl : Option String := none
  isAvailable : Option Bool := none
  deriving Repr, DecidableEq

/-- `const newId = Math.max(...menuItems.map(item => item.id || 0)) + 1`
(menu.js line 127).  For a non-empty menu this is the maximum mapped
identifier plus one; for the empty menu `Math.max()` is `-Infinity` and
`-Infinity + 1` is still `-Infinity`, a non-integer value modelled as
`none`. -/
def menuNewId (menuItems : List MenuItem) : Option Int :=
  match menuItems.map (fun it => it.id.getD 0) with
  | [] => none
  | x :: xs => some (xs.foldl max x + 1)

/-- `POST /` on the menu router (menu.js lines 103-159): require
`itemName`, `category` and a defined `pricePerServing`, reject a negative
price, then append the new item and write back. -/
def createMenuItem (menuItems : List MenuItem) (req : MenuCreateRequest)
    (writeOk : Bool) : RouteResult MenuItem × List MenuItem :=
  match req.pricePerServing with
  | none =>
    (.err 400 "Missing required fields: itemName, category, pricePerServing", menuItems)
  | some price =>
    if !(truthyStr req.itemName) || !(truthyStr req.category) then
      (.err 400 "Missing required fields: itemName, category, pricePerServing", menuItems)
    else if price < 0 then
      (.err 400 "Price per serving must be non-negative", menuItems)
    else
      let newItem : MenuItem :=
        { id := menuNewId menuItems
          itemName := jsTrim (req.itemName.getD "")
          description := req.description.getD ""
          category := jsTrim (req.category.getD "")
          pricePerServing := price
          imageUrl := req.imageUrl.getD ""
          isAvailable := req.isAvailable.getD true }
      if writeOk then (.ok 201 newItem, menuItems ++ [newItem])
      else (.err 500 "Failed to save menu item", menuItems)

/-- The per-field merge of `PUT /:id` (menu.js lines 182-203): update only
the provided fields, trimming names and categories. -/
def mergeMenuItem (cur : MenuItem) (u : MenuUpdates) : MenuItem :=
  { id := cur.id
    itemName := match u.itemName with
      | some v => jsTrim v
      | none => cur.itemName
    description := u.description.getD cur.description
    category := match u.category with
      | some v => jsTrim v
      | none => cur.category
    pricePerServing := u.pricePerServing.getD cur.pricePerServing
    imageUrl := u.imageUrl.getD cur.imageUrl
    isAvailable := u.isAvailable.getD cur.isAvailable }

/-- `PUT /:id` on the menu router (menu.js lines 162-225): reject a
provided negative price up front, then find the item, merge the provided
fields and write back.  The second component is the menu file's content
after the request. -/
def updateMenuItem (menuItems : List MenuItem) (itemId : Int) (u : MenuUpdates)
    (writeOk : Bool) : RouteResult MenuItem × List MenuItem :=
  if (match u.pricePerServing with
      | some p => decide (p < 0)
      | none => false) then
    (.err 400 "Price per serving must be non-negative", menuItems)
  else
    match menuItems.findIdx? (fun it => it.id == some itemId) with
    | none => (.err 404 "Menu item not found", menuItems)
    | some i =>
      match menuItems.get? i with
      | none => (.err 404 "Menu item not found", menuItems)
      | some cur =>
        let updated := mergeMenuItem cur u
        if writeOk then (.ok 200 updated, menuItems.set i updated)
        else (.err 500 "Failed to save menu item", menuItems)

end Catering

/-! ## Password policy (auth helper, validatePasswordStrength) -/

namespace Catering

/-- The special-character class of the policy's regex,
`[!@#$%^&*(),.?":\x7b\x7d|<>]` (the two bracket characters are written by
code point). -/
def pwSpecialChars : List Char :=
  ['!', '@', '#', '$', '%', '^', '&', '*', '(', ')', ',', '.', '?', '"', ':',
   Char.ofNat 123, Char.ofNat 125, '|', '<', '>']

/-- `/[A-Z]/.test(password)`. -/
def hasUpperCase (password : String) : Bool :=
  password.data.any (fun c => 'A' ≤ c && c ≤ 'Z')

/-- `/[a-z]/.test(password)`. -/
def hasLowerCase (password : String) : Bool :=
  password.data.any (fun c => 'a' ≤ c && c ≤ 'z')

/-- `/\d/.test(password)`. -/
def hasNumbers (password : String) : Bool :=
  password.data.any (fun c => '0' ≤ c && c ≤ '9')

/-- The special-character regex test. -/
def hasSpecial (password : String) : Bool :=
  password.data.any (fun c => pwSpecialChars.contains c)

/-- The `errors` array pushed by `validatePasswordStrength`, in source
order: length, uppercase, lowercase, number, special character. -/
def passwordErrors (password : String) : List String :=
  (if password.length < 8 then
    ["Password must be at least 8 characters long"] else []) ++
  (if !hasUpperCase password then
    ["Password must contain at least one uppercase letter"] else []) ++
  (if !hasLowerCase password then
    ["Password must contain at least one lowercase letter"] else []) ++
  (if !hasNumbers password then
    ["Password must contain at least one number"] else []) ++
  (if !hasSpecial password then
    ["Password must contain at least one special character"] else [])

/-- `calculatePasswordStrength`: one point per satisfied criterion (length
8, length 12, upper, lower, digit, special), graded below 3 / below 5. -/
def calculatePasswordStrength (password : String) : String :=
  let score :=
    (if password.length ≥ 8 then 1 else 0) +
    (if password.length ≥ 12 then 1 else 0) +
    (if hasUpperCase password then 1 else 0) +
    (if hasLowerCase password then 1 else 0) +
    (if hasNumbers password then 1 else 0) +
    (if hasSpecial password then 1 else 0)
  if score < 3 then "weak" else if score < 5 then "medium" else "strong"

/-- Result object of `validatePasswordStrength`. -/
structure PasswordValidation where
  isValid : Bool
  errors : List String
  strength : String
  deriving Repr, DecidableEq

/-- `validatePasswordStrength` (auth helper lines 77-111). -/
def validatePasswordStrength (password : String) : PasswordValidation :=
  { isValid := (passwordErrors password).length == 0
    errors := passwordErrors password
    strength := calculatePasswordStrength password }

/-- C7: Password validation accepts exactly those passwords of length at
least 8 containing an uppercase letter, a lowercase letter, a digit and a
special character (of the policy's punctuation class); `Abc12345!` is
valid with strength `medium` or `strong`; `abc` is invalid with exactly
the four reasons length, uppercase, digit, special character. -/
theorem password_policy :
    (∀ pw : String, (validatePasswordStrength pw).isValid = true ↔
      (pw.length ≥ 8 ∧ hasUpperCase pw = true ∧ hasLowerCase pw = true ∧
        hasNumbers pw = true ∧ hasSpecial pw = true)) ∧
    (validatePasswordStrength "Abc12345!").isValid = true ∧
    ((validatePasswordStrength "Abc12345!").strength = "medium" ∨
      (validatePasswordStrength "Abc12345!").strength = "strong") ∧
    (validatePasswordStrength "abc").isValid = false ∧
    (validatePasswordStrength "abc").errors =
      ["Password must be at least 8 characters long",
       "Password must contain at least one uppercase letter",
       "Password must contain at least one number",
       "Password must contain at least one special character"] := by
  refine ⟨?_, by decide, Or.inr (by decide), by decide, by decide⟩
  intro pw
  show ((passwordErrors pw).length == 0) = true ↔ _
  rw [beq_iff_eq, List.length_eq_zero]
  unfold passwordErrors
  constructor
  · intro hv
    simp only [List.append_eq_nil] at hv
    obtain ⟨⟨⟨⟨e1, e2⟩, e3⟩, e4⟩, e5⟩ := hv
    have c1 : ¬ pw.length < 8 := by
      intro hc
      rw [if_pos hc] at e1
      exact absurd e1 (by simp)
    have hcb : ∀ b : Bool, ∀ msg : String,
        (if (!b) = true then [msg] else []) = ([] : List String) → b = true := by
      intro b msg he
      cases b with
      | true => rfl
      | false => exact absurd he (by simp)
    exact ⟨by omega, hcb _ _ e2, hcb _ _ e3, hcb _ _ e4, hcb _ _ e5⟩
  · rintro ⟨hl, hu, hlo, hn, hsp⟩
    rw [if_neg (by omega), hu, hlo, hn, hsp]
    simp

end Catering

namespace Catering

/-- A stored menu item for the concrete instances below. -/
def menuItem1 : MenuItem :=
  { id := some 1, itemName := "Adobo", category := "Main", pricePerServing := 100 }

/-- An update body carrying a negative price. -/
def negPriceUpdate : MenuUpdates := { pricePerServing := some (-5) }

/-- C8: For every stored menu list and menu item id present in it, an
update request whose `pricePerServing` is negative is rejected with a
validation error and the stored menu list is unchanged. -/
theorem menu_update_negative_price (menuItems : List MenuItem) (itemId : Int)
    (u : MenuUpdates) (w : Bool) (p : Rat)
    (hmem : ∃ it ∈ menuItems, it.id = some itemId)
    (hp : u.pricePerServing = some p) (hneg : p < 0) :
    updateMenuItem menuItems itemId u w =
      (.err 400 "Price per serving must be non-negative", menuItems) := by
  unfold updateMenuItem
  rw [hp]
  simp [hneg]

/-- Witness for `menu_update_negative_price` at a concrete input. -/
theorem menu_update_negative_price_witness :
    updateMenuItem [menuItem1] 1 negPriceUpdate true =
      (.err 400 "Price per serving must be non-negative", [menuItem1]) :=
  menu_update_negative_price [menuItem1] 1 negPriceUpdate true (-5)
    ⟨menuItem1, by simp, rfl⟩ rfl (by norm_num)

/-- The fold `Math.max` lands on its seed or one of the arguments. -/
lemma foldl_max_mem : ∀ (xs : List Int) (x : Int),
    xs.foldl max x = x ∨ xs.foldl max x ∈ xs := by
  intro xs
  induction xs with
  | nil => intro x; left; rfl
  | cons y ys ih =>
    intro x
    rcases ih (max x y) with h | h
    · rcases max_choice x y with hm | hm
      · left
        rw [List.foldl_cons, h, hm]
      · right
        rw [List.foldl_cons, h, hm]
        exact List.mem_cons_self _ _
    · right
      rw [List.foldl_cons]
      exact List.mem_cons_of_mem _ h

/-- The fold `Math.max` bounds its seed and all arguments from above. -/
lemma le_foldl_max : ∀ (xs : List Int) (x : Int),
    x ≤ xs.foldl max x ∧ ∀ y ∈ xs, y ≤ xs.foldl max x := by
  intro xs
  induction xs with
  | nil =>
    intro x
    exact ⟨le_refl x, by simp⟩
  | cons y ys ih =>
    intro x
    obtain ⟨h1, h2⟩ := ih (max x y)
    rw [List.foldl_cons]
    refine ⟨le_trans (le_max_left x y) h1, ?_⟩
    intro z hz
    rw [List.mem_cons] at hz
    rcases hz with rfl | hz
    · exact le_trans (le_max_right x z) h1
    · exact h2 z hz

/-- C10: For every non-empty stored menu list, the creation-time identifier
is 1 plus the maximum of the mapped identifiers (`item.id || 0`), which is
strictly greater than every identifier present in the list; for the empty
menu list the computed identifier is not a finite integer (the maximum of
an empty set), modelled as `none`; and the create operation assigns the
new item exactly this identifier. -/
theorem menu_new_id_fresh :
    (∀ menuItems : List MenuItem, menuItems ≠ [] →
      ∃ m : Int, menuNewId menuItems = some m ∧
        (m - 1) ∈ menuItems.map (fun it => it.id.getD 0) ∧
        (∀ v ∈ menuItems.map (fun it => it.id.getD 0), v ≤ m - 1) ∧
        (∀ it ∈ menuItems, ∀ v : Int, it.id = some v → v < m)) ∧
    menuNewId ([] : List MenuItem) = none ∧
    (∀ (menuItems : List MenuItem) (req : MenuCreateRequest) (price : Rat),
      truthyStr req.itemName = true → truthyStr req.category = true →
      req.pricePerServing = some price → ¬ price < 0 →
      ∃ ni : MenuItem, (createMenuItem menuItems req true).1 = .ok 201 ni ∧
        ni.id = menuNewId menuItems) := by
  refine ⟨?_, rfl, ?_⟩
  · intro menuItems hne
    cases menuItems with
    | nil => exact absurd rfl hne
    | cons hd tl =>
      refine ⟨(tl.map (fun it => it.id.getD 0)).foldl max (hd.id.getD 0) + 1, rfl, ?_, ?_, ?_⟩
      · rw [List.map_cons, add_sub_cancel_right]
        rcases foldl_max_mem (tl.map (fun it => it.id.getD 0)) (hd.id.getD 0) with h | h
        · rw [h]
          exact List.mem_cons_self _ _
        · exact List.mem_cons_of_mem _ h
      · intro v hv
        rw [add_sub_cancel_right]
        rw [List.map_cons, List.mem_cons] at hv
        obtain ⟨h1, h2⟩ := le_foldl_max (tl.map (fun it => it.id.getD 0)) (hd.id.getD 0)
        rcases hv with rfl | hv
        · exact h1
        · exact h2 v hv
      · intro it hit v hv
        obtain ⟨h1, h2⟩ := le_foldl_max (tl.map (fun it => it.id.getD 0)) (hd.id.getD 0)
        rw [List.mem_cons] at hit
        have hvle : v ≤ (tl.map (fun it => it.id.getD 0)).foldl max (hd.id.getD 0) := by
          rcases hit with rfl | hit
          · have hveq : it.id.getD 0 = v := by
              rw [hv]
              rfl
            rw [← hveq]
            exact h1
          · refine le_trans ?_ (h2 (it.id.getD 0) (List.mem_map_of_mem _ hit))
            rw [hv]
            simp
        omega
  · intro menuItems req price hin hic hp hnneg
    unfold createMenuItem
    rw [hp]
    simp only [hin, hic, Bool.not_true, Bool.or_self, Bool.false_eq_true, if_false,
      if_neg hnneg, if_pos rfl]
    exact ⟨_, rfl, rfl⟩

/-- A well-formed menu creation request for the witness below. -/
def menuReq1 : MenuCreateRequest :=
  { itemName := some "Sinigang", category := some "Main", pricePerServing := some 100 }

/-- Witness for `menu_new_id_fresh` at concrete inputs. -/
theorem menu_new_id_fresh_witness :
    (∃ m : Int, menuNewId [menuItem1] = some m ∧
      (m - 1) ∈ [menuItem1].map (fun it => it.id.getD 0) ∧
      (∀ v ∈ [menuItem1].map (fun it => it.id.getD 0), v ≤ m - 1) ∧
      (∀ it ∈ [menuItem1], ∀ v : Int, it.id = some v → v < m)) ∧
    (∃ ni : MenuItem, (createMenuItem [menuItem1] menuReq1 true).1 = .ok 201 ni ∧
      ni.id = menuNewId [menuItem1]) :=
  ⟨menu_new_id_fresh.1 [menuItem1] (List.cons_ne_nil _ _),
   menu_new_id_fresh.2.2 [menuItem1] menuReq1 100 (by decide) (by decide) rfl
     (by norm_num)⟩

/-- C9, counterexample: a failed read of the bookings file is swallowed by
`readJSONFile`, which returns `[]`; the availability operation then
responds with success and every slot free — behaving exactly as if the
collection were empty — rather than a 500. -/
theorem read_failure_proceeds_empty_cex :
    readJSONFile (none : Option (List Booking)) = [] ∧
    availabilityRoute none "2024-06-01" =
      .ok 200 ([], ["morning", "afternoon"]) := by
  exact ⟨rfl, rfl⟩

/-- C9 (amended): write failures are converted into a 500 response with the
stored file keeping its prior state, but a read failure is caught inside
the read helper and yields an empty collection with which the operation
proceeds: the availability route never produces an error status. -/
theorem storage_failure_behavior (raw : Option (List Booking)) (d : String)
    (bookings : List Booking) (req : BookingRequest) (gid iso : String)
    (dd s : String) (items : List SelectedItem)
    (hrd : req.eventDate = some dd) (hdd : dd ≠ "")
    (hrs : req.timeSlot = some s) (hs : s ≠ "")
    (hitems : req.selectedItems = some items) (hne : items ≠ [])
    (hnc : conflictingBooking bookings req = none) :
    readJSONFile (none : Option (List Booking)) = [] ∧
    (∃ payload, availabilityRoute raw d = .ok 200 payload) ∧
    (createBooking bookings req gid iso false).1 = .err 500 "Failed to save booking" ∧
    (createBooking bookings req gid iso false).2 = bookings := by
  have hie : items.isEmpty = false := by
    rw [List.isEmpty_eq_false_iff_exists_mem]
    cases items with
    | nil => exact absurd rfl hne
    | cons x xs => exact ⟨x, List.mem_cons_self x xs⟩
  refine ⟨rfl, ⟨_, rfl⟩, ?_, ?_⟩ <;>
  · unfold createBooking
    rw [hrd, hrs, hitems, hnc]
    simp [truthyStr, hdd, hs, hie]

/-- Witness for `storage_failure_behavior` at a concrete input. -/
theorem storage_failure_behavior_witness :
    readJSONFile (none : Option (List Booking)) = [] ∧
    (∃ payload, availabilityRoute (none : Option (List Booking)) "2024-06-01" =
      .ok 200 payload) ∧
    (createBooking [] camelCexRequest "BK-3" "2024-01-02T00:00:00Z" false).1 =
      .err 500 "Failed to save booking" ∧
    (createBooking [] camelCexRequest "BK-3" "2024-01-02T00:00:00Z" false).2 = [] :=
  storage_failure_behavior none "2024-06-01" [] camelCexRequest
    "BK-3" "2024-01-02T00:00:00Z" "2024-07-04" "afternoon" camelItems
    rfl (by decide) rfl (by decide) rfl (List.cons_ne_nil _ _) rfl

end Catering
